import Mathlib

/-!
Verification of the similarity engine and query-safety predicate of the
startup-ecosystem knowledge-graph repository.

The definitions below are a shallow embedding of `similarity_analysis.py`
(class `StartupSimilarityAnalyzer`) and of `query_system.py`
(`IntelligentQuerySystem._is_safe_query`).

Modelling conventions:
- Scalar attribute values are modelled as strings; a Python attribute map is
  `List (String × Option String)` where a missing key models an absent
  attribute and a stored `none` models an explicit JSON `null`.
- Python float division of two nonnegative integers is modelled exactly by
  `mkRat` on `ℚ` (see `jaccard_eq_div`).
- `networkx.Graph` is a simple undirected graph: `addEdge` on an already
  present unordered pair overwrites the edge attributes instead of adding a
  parallel edge, exactly as `nx.Graph.add_edge` does.
- Python `sorted(key=..., reverse=True)` is a stable descending sort; it is
  modelled by the stable insertion sort `pySortDesc`.
- Python list slicing `l[:n]` (including `n = 0` and negative `n`) is
  modelled by `pyTake`.
-/

/-- A Python attribute dictionary: key to (possibly null) scalar value. -/
abbrev Attrs := List (String × Option String)

/-- Python `d.get(k)`: `None` both when the key is absent and when the stored
value is `null`. -/
def pyGet (m : Attrs) (k : String) : Option String := (m.lookup k).join

/-- Python `d.get(k, default)` with a string default: the stored value (which
may be `null`) when the key is present, otherwise the default. -/
def pyGetD (m : Attrs) (k : String) (d : String) : Option String :=
  match m.lookup k with
  | some v => v
  | none => some d

/-- Python truthiness of an optional string: `None` and the empty string are
falsy, every other string is truthy. -/
def truthy : Option String → Bool
  | some s => s ≠ ""
  | none => false

/-- One node of the loaded `networkx` graph: its id and its attribute dict. -/
structure Node where
  id : String
  attrs : Attrs
deriving DecidableEq

/-- One stored edge of the `networkx` graph, with its `type` attribute.
Edge attributes other than `type` are never read by the engine and are not
modelled. -/
structure Edge where
  u : String
  v : String
  rtype : String
deriving DecidableEq

/-- An input relationship record from the knowledge-graph JSON file. -/
structure RelRec where
  source : String
  target : String
  rtype : String
deriving DecidableEq

/-- An input entity record from the knowledge-graph JSON file. -/
structure Entity where
  id : String
  etype : String
  props : Attrs
deriving DecidableEq

/-- The state of the loaded `networkx` graph. -/
structure NXGraph where
  nodes : List Node
  edges : List Edge
deriving DecidableEq

/-- Does edge `e` connect the unordered pair `{a, b}`? -/
def sameUPair (e : Edge) (a b : String) : Bool :=
  (e.u = a && e.v = b) || (e.u = b && e.v = a)

/-- `nx.Graph.add_edge`: if an edge already joins the unordered pair, its
attributes are overwritten; otherwise a single new edge is appended. -/
def addEdge (es : List Edge) (a b : String) (t : String) : List Edge :=
  if es.any (fun e => sameUPair e a b) then
    es.map (fun e => if sameUPair e a b then { e with rtype := t } else e)
  else
    es ++ [⟨a, b, t⟩]

/-- The edge store produced by `load_data`: every relationship record is
pushed through `add_edge` in input order. -/
def loadEdges (rels : List RelRec) : List Edge :=
  rels.foldl (fun es r => addEdge es r.source r.target r.rtype) []

/-- `load_data`: every entity becomes a node whose attributes are its
properties plus a `type` attribute; relationships become edges of the simple
undirected graph.  (Assumes the property map itself has no `type` key, which
would be a `TypeError` in the source.) -/
def loadGraph (ents : List Entity) (rels : List RelRec) : NXGraph :=
  { nodes := ents.map (fun e => ⟨e.id, ("type", some e.etype) :: e.props⟩),
    edges := loadEdges rels }

/-- The node with the given id, if any. -/
def findNode (g : NXGraph) (v : String) : Option Node :=
  g.nodes.find? (fun n => n.id = v)

/-- The attribute dict of a node (empty for an id not in the graph). -/
def nodeAttrs (g : NXGraph) (v : String) : Attrs :=
  match findNode g v with
  | some n => n.attrs
  | none => []

/-- `self.graph.nodes[v].get(k)`. -/
def nodeGet (g : NXGraph) (v : String) (k : String) : Option String :=
  pyGet (nodeAttrs g v) k

/-- `self.graph.nodes[v].get('type')`. -/
def nodeType (g : NXGraph) (v : String) : Option String := nodeGet g v "type"

/-- `self.graph.nodes[v].get('name', v)`: the stored name value (possibly
null) when the key is present, otherwise the node id. -/
def nodeNameOr (g : NXGraph) (v : String) : Option String :=
  pyGetD (nodeAttrs g v) "name" v

/-- The node ids in graph iteration (= insertion) order. -/
def nodeIds (g : NXGraph) : List String := g.nodes.map Node.id

/-- Python `str.lower` on the characters of a string. -/
def lowerStr (s : String) : String := String.mk (s.data.map Char.toLower)

/-- `node_data.get('name', '').lower()`.  A stored null name would raise
`AttributeError` in the source; it is modelled as `none`, which never
matches. -/
def lowerName (m : Attrs) : Option String :=
  match m.lookup "name" with
  | some (some s) => some (lowerStr s)
  | some none => none
  | none => some (lowerStr "")

/-- The target-resolution loop shared by the three `find_similar_*_to`
methods: the first node (in iteration order) of the wanted type whose
display name matches case-insensitively. -/
def resolveByName (g : NXGraph) (t : String) (nm : String) : Option String :=
  (g.nodes.find? (fun n =>
      pyGet n.attrs "type" = some t && lowerName n.attrs = some (lowerStr nm))).map Node.id

/-- `self.graph.neighbors(v)` as a list (with possible repeats, collapsed by
the set built from it). -/
def adjList (g : NXGraph) (v : String) : List String :=
  g.edges.filterMap (fun e =>
    if e.u = v then some e.v else if e.v = v then some e.u else none)

/-- The set of neighbors of `v` whose node `type` attribute is `t` —
the set built by the neighbor-collection loops of the engine.  Note that the
relationship type on the connecting edge is never consulted. -/
def typedNeighbors (g : NXGraph) (v : String) (t : String) : Finset String :=
  ((adjList g v).filter (fun u => nodeGet g u "type" = some t)).toFinset

/-- `len(A & B) / len(A | B)` as an exact rational. -/
def jaccard (A B : Finset String) : ℚ :=
  mkRat ((A ∩ B).card : Int) ((A ∪ B).card)

/-- The set-overlap score used for two startups: Jaccard over their
technology neighbor sets. -/
def startupScore (g : NXGraph) (a b : String) : ℚ :=
  jaccard (typedNeighbors g a "technology") (typedNeighbors g b "technology")

/-- The set-overlap score used for two VCs: Jaccard over their startup
neighbor sets. -/
def vcScore (g : NXGraph) (a b : String) : ℚ :=
  jaccard (typedNeighbors g a "startup") (typedNeighbors g b "startup")

/-- The fixed comparable attribute keys of `founder_similarity_by_background`,
in source order. -/
def founderKeys : List String := ["university", "domain_expertise", "technical_background"]

/-- One `# Compare ...` block of the founder scorer: when the value of key
`k` is truthy on both founders the comparison count rises by one, and the
match count rises too when the values are equal. -/
def cmpStep (g : NXGraph) (a b : String) (acc : ℕ × ℕ) (k : String) : ℕ × ℕ :=
  if truthy (nodeGet g a k) && truthy (nodeGet g b k) then
    ((if nodeGet g a k = nodeGet g b k then acc.1 + 1 else acc.1), acc.2 + 1)
  else acc

/-- The `(similarity_score, comparisons)` pair after the three comparison
blocks. -/
def founderCounts (g : NXGraph) (a b : String) : ℕ × ℕ :=
  founderKeys.foldl (cmpStep g a b) (0, 0)

/-- `similarity_score / comparisons` as an exact rational (the source only
divides when `comparisons > 0`; `mkRat m 0 = 0` extends it totally). -/
def founderScore (g : NXGraph) (a b : String) : ℚ :=
  mkRat ((founderCounts g a b).1 : Int) (founderCounts g a b).2

/-- Python list slicing `l[:n]` for an arbitrary integer `n`. -/
def pyTake (n : Int) (l : List α) : List α :=
  if 0 ≤ n then l.take n.toNat else l.take ((l.length : Int) + n).toNat

/-- Insert `x` into an already descending-sorted list, after every element
of greater-or-equal key (so that the overall sort is stable). -/
def insertByDesc (key : α → ℚ) (x : α) : List α → List α
  | [] => [x]
  | y :: ys => if key y < key x then x :: y :: ys else y :: insertByDesc key x ys

/-- Python `sorted(l, key=key, reverse=True)`: a stable descending sort. -/
def pySortDesc (key : α → ℚ) (l : List α) : List α :=
  l.foldl (fun acc x => insertByDesc key x acc) []

/-- All pairs `(l[i], l[j])` with `i < j`, in the enumeration order of the
source's nested `for i / for j in range(i+1, ...)` loops. -/
def allPairs : List α → List (α × α)
  | [] => []
  | x :: xs => xs.map (fun y => (x, y)) ++ allPairs xs

/-- One emitted record of the three all-pairs methods.  Field names by
entity type: `name1`/`name2` are `startup1`/`startup2`, `vc1`/`vc2` or
`founder1`/`founder2`; `shared`/`total` are `shared_techs`/`total_techs`,
`shared_investments`/`total_investments` or
`matching_attributes`/`total_compared`. -/
structure PairResult where
  name1 : Option String
  name2 : Option String
  similarity : ℚ
  shared : ℕ
  total : ℕ
deriving DecidableEq

/-- One emitted record of the three `find_similar_*_to` methods. -/
structure TargetResult where
  name : Option String
  similarity : ℚ
  shared : ℕ
  total : ℕ
deriving DecidableEq

/-- The keys of the `startup_techs` defaultdict, in node-iteration order:
startup-typed nodes with at least one technology neighbor. -/
def startupIdList (g : NXGraph) : List String :=
  (nodeIds g).filter (fun v =>
    nodeType g v = some "startup" && typedNeighbors g v "technology" ≠ ∅)

/-- The keys of the `vc_startups` defaultdict: vc-typed nodes with at least
one startup neighbor. -/
def vcIdList (g : NXGraph) : List String :=
  (nodeIds g).filter (fun v =>
    nodeType g v = some "vc" && typedNeighbors g v "startup" ≠ ∅)

/-- The `founders` list: every founder-typed node. -/
def foundersList (g : NXGraph) : List String :=
  (nodeIds g).filter (fun v => nodeType g v = some "founder")

/-- The startup pairs for which the all-pairs loop appends a record: both
tech sets nonempty (always true for defaultdict keys, but checked by the
source) and strictly positive Jaccard. -/
def startupKeptPairs (g : NXGraph) : List (String × String) :=
  (allPairs (startupIdList g)).filter (fun p =>
    (typedNeighbors g p.1 "technology" ≠ ∅ &&
     typedNeighbors g p.2 "technology" ≠ ∅) &&
    decide (0 < startupScore g p.1 p.2))

/-- The VC pairs for which the all-pairs loop appends a record. -/
def vcKeptPairs (g : NXGraph) : List (String × String) :=
  (allPairs (vcIdList g)).filter (fun p =>
    (typedNeighbors g p.1 "startup" ≠ ∅ &&
     typedNeighbors g p.2 "startup" ≠ ∅) &&
    decide (0 < vcScore g p.1 p.2))

/-- The founder pairs for which the all-pairs loop appends a record:
`comparisons > 0` and `final_similarity > 0`. -/
def founderKeptPairs (g : NXGraph) : List (String × String) :=
  (allPairs (foundersList g)).filter (fun p =>
    decide (0 < (founderCounts g p.1 p.2).2) &&
    decide (0 < founderScore g p.1 p.2))

/-- `startup_similarity_by_technology`: the kept pairs, shaped into records
and sorted by descending similarity (stable). -/
def startup_similarity_by_technology (g : NXGraph) : List PairResult :=
  pySortDesc (fun r => r.similarity)
    ((startupKeptPairs g).map (fun p =>
      ⟨nodeNameOr g p.1, nodeNameOr g p.2, startupScore g p.1 p.2,
       (typedNeighbors g p.1 "technology" ∩ typedNeighbors g p.2 "technology").card,
       (typedNeighbors g p.1 "technology" ∪ typedNeighbors g p.2 "technology").card⟩))

/-- `vc_similarity_by_investments`. -/
def vc_similarity_by_investments (g : NXGraph) : List PairResult :=
  pySortDesc (fun r => r.similarity)
    ((vcKeptPairs g).map (fun p =>
      ⟨nodeNameOr g p.1, nodeNameOr g p.2, vcScore g p.1 p.2,
       (typedNeighbors g p.1 "startup" ∩ typedNeighbors g p.2 "startup").card,
       (typedNeighbors g p.1 "startup" ∪ typedNeighbors g p.2 "startup").card⟩))

/-- `founder_similarity_by_background`. -/
def founder_similarity_by_background (g : NXGraph) : List PairResult :=
  pySortDesc (fun r => r.similarity)
    ((founderKeptPairs g).map (fun p =>
      ⟨nodeNameOr g p.1, nodeNameOr g p.2, founderScore g p.1 p.2,
       (founderCounts g p.1 p.2).1, (founderCounts g p.1 p.2).2⟩))

/-- `get_top_similar_entities`: dispatch on the entity type string and slice;
an unknown type falls through and Python returns `None`. -/
def get_top_similar_entities (g : NXGraph) (entity_type : String) (top_n : Int) :
    Option (List PairResult) :=
  if entity_type = "startup" then some (pyTake top_n (startup_similarity_by_technology g))
  else if entity_type = "vc" then some (pyTake top_n (vc_similarity_by_investments g))
  else if entity_type = "founder" then some (pyTake top_n (founder_similarity_by_background g))
  else none

/-- `find_similar_startups_to` (message strings are modelled without the
single quotes the source puts around the name). -/
def find_similar_startups_to (g : NXGraph) (nm : String) (top_n : Int) :
    String ⊕ List TargetResult :=
  match resolveByName g "startup" nm with
  | none => Sum.inl ("Startup " ++ nm ++ " not found")
  | some target =>
    if typedNeighbors g target "technology" = ∅ then
      Sum.inl ("No technologies found for " ++ nm)
    else
      Sum.inr (pyTake top_n (pySortDesc (fun r => r.similarity)
        ((nodeIds g).filterMap (fun v =>
          if nodeType g v = some "startup" ∧ v ≠ target then
            if typedNeighbors g v "technology" ≠ ∅ then
              if 0 < startupScore g target v then
                some (⟨nodeNameOr g v, startupScore g target v,
                  (typedNeighbors g target "technology" ∩ typedNeighbors g v "technology").card,
                  (typedNeighbors g target "technology" ∪ typedNeighbors g v "technology").card⟩ :
                  TargetResult)
              else none
            else none
          else none))))

/-- `find_similar_founders_to`.  Note: unlike the startup and VC variants,
there is no early return when the target has no comparable attributes. -/
def find_similar_founders_to (g : NXGraph) (nm : String) (top_n : Int) :
    String ⊕ List TargetResult :=
  match resolveByName g "founder" nm with
  | none => Sum.inl ("Founder " ++ nm ++ " not found")
  | some target =>
    Sum.inr (pyTake top_n (pySortDesc (fun r => r.similarity)
      ((nodeIds g).filterMap (fun v =>
        if nodeType g v = some "founder" ∧ v ≠ target then
          if 0 < (founderCounts g target v).2 then
            if 0 < founderScore g target v then
              some (⟨nodeNameOr g v, founderScore g target v,
                (founderCounts g target v).1, (founderCounts g target v).2⟩ : TargetResult)
            else none
          else none
        else none))))

/-- The keyword list of `IntelligentQuerySystem._is_safe_query`. -/
def blocked_keywords : List String :=
  ["delete", "detach", "create", "merge", "set", "remove", "drop"]

/-- Is `nd` a leading segment of `hs`? -/
def startsWithL : List Char → List Char → Bool
  | [], _ => true
  | _ :: _, [] => false
  | a :: as, b :: bs => a = b && startsWithL as bs

/-- Is `nd` a contiguous segment of `hs` (Python `nd in hs`)? -/
def containsL (nd : List Char) : List Char → Bool
  | [] => startsWithL nd []
  | c :: cs => startsWithL nd (c :: cs) || containsL nd cs

/-- Python `k in s` on strings: contiguous-substring containment. -/
def containsSub (s : String) (k : String) : Bool := containsL k.data s.data

/-- `_is_safe_query`: true when the lowercased query contains none of the
blocked keywords as a substring. -/
def is_safe_query (q : String) : Bool :=
  !(blocked_keywords.any (fun k => containsSub (lowerStr q) k))

/-- Truthiness of the key on both entities: the condition actually tested by
each comparison block of the founder scorer. -/
def truthyBoth (g : NXGraph) (a b : String) (k : String) : Bool :=
  truthy (nodeGet g a k) && truthy (nodeGet g b k)

/-- The comparable keys whose values are truthy on both entities and equal. -/
def matchKeys (g : NXGraph) (a b : String) : List String :=
  founderKeys.filter (fun k => truthyBoth g a b k && decide (nodeGet g a k = nodeGet g b k))

/-- The comparable keys whose values are truthy on both entities. -/
def compKeys (g : NXGraph) (a b : String) : List String :=
  founderKeys.filter (truthyBoth g a b)

/-- Following the wording of the spec for the attribute-match scorer: a key
is comparable when it is present and non-null on the attribute map
(regardless of truthiness of the value). -/
def presentNonNull (m : Attrs) (k : String) : Bool :=
  match m.lookup k with
  | some (some _) => true
  | _ => false

/-- The attribute-match score as the spec words it: matches over keys
present and non-null on both entities. -/
def specFounderScore (g : NXGraph) (a b : String) : ℚ :=
  mkRat ((founderKeys.filter (fun k =>
      (presentNonNull (nodeAttrs g a) k && presentNonNull (nodeAttrs g b) k) &&
      decide (nodeGet g a k = nodeGet g b k))).length : Int)
    ((founderKeys.filter (fun k =>
      presentNonNull (nodeAttrs g a) k && presentNonNull (nodeAttrs g b) k)).length)

/-- Following the wording of the spec for Fund-to-Fund similarity: the
startup neighbors reached through an investment-type relationship. -/
def specInvestmentNeighbors (g : NXGraph) (v : String) : Finset String :=
  ((g.edges.filterMap (fun e =>
      if e.rtype = "INVESTS_IN" then
        if e.u = v then some e.v else if e.v = v then some e.u else none
      else none)).filter (fun u => nodeGet g u "type" = some "startup")).toFinset

/-- The Fund-to-Fund score as the spec words it. -/
def specVcScore (g : NXGraph) (a b : String) : ℚ :=
  jaccard (specInvestmentNeighbors g a) (specInvestmentNeighbors g b)

/-- The mutation keyword list as the spec words it (it names `write` and
omits `detach` and `create`). -/
def specKeywords : List String := ["write", "delete", "merge", "set", "remove", "drop"]

/-- The identifier pair of an emitted record, for stating the ordering the
spec claims (in the concrete stores below every display name equals the
entity id, so this is the id pair). -/
def idPair (r : PairResult) : String × String := (r.name1.getD "", r.name2.getD "")

/-- Lexicographic comparison of character lists (by code point). -/
def charListLe : List Char → List Char → Bool
  | [], _ => true
  | _ :: _, [] => false
  | a :: as, b :: bs =>
    if a.val < b.val then true else if b.val < a.val then false else charListLe as bs

/-- Lexicographic `≤` on strings. -/
def strLeB (s t : String) : Bool := charListLe s.data t.data

/-- Lexicographic `<` on strings. -/
def strLtB (s t : String) : Bool := !(strLeB t s)

/-- Ascending lexicographic order on id pairs, as the spec words the claimed
tie-break. -/
def pairLexLeB (p q : String × String) : Bool :=
  strLtB p.1 q.1 || (p.1 == q.1 && strLeB p.2 q.2)

/-- Two ordered pairs describe the same unordered pair. -/
def samePair {α : Type} (p q : α × α) : Prop :=
  (p.1 = q.1 ∧ p.2 = q.2) ∨ (p.1 = q.2 ∧ p.2 = q.1)

/-- Descending order with respect to a rational key. -/
def descBy (key : α → ℚ) (x y : α) : Prop := key y ≤ key x

/-- The three-organization scenario of the spec: S1 uses T1 and T2, S2 uses
T2 and T3, S3 uses nothing. -/
def entsC1 : List Entity :=
  [⟨"S1", "startup", [("name", some "S1")]⟩,
   ⟨"S2", "startup", [("name", some "S2")]⟩,
   ⟨"S3", "startup", [("name", some "S3")]⟩,
   ⟨"T1", "technology", [("name", some "T1")]⟩,
   ⟨"T2", "technology", [("name", some "T2")]⟩,
   ⟨"T3", "technology", [("name", some "T3")]⟩]

def relsC1 : List RelRec :=
  [⟨"S1", "T1", "USES_TECHNOLOGY"⟩, ⟨"S1", "T2", "USES_TECHNOLOGY"⟩,
   ⟨"S2", "T2", "USES_TECHNOLOGY"⟩, ⟨"S2", "T3", "USES_TECHNOLOGY"⟩]

def gC1 : NXGraph := loadGraph entsC1 relsC1

/-- A store with three startups inserted in the order s3, s1, s2, whose
three pairs all score exactly 1/3. -/
def entsC3 : List Entity :=
  [⟨"s3", "startup", [("name", some "s3")]⟩,
   ⟨"s1", "startup", [("name", some "s1")]⟩,
   ⟨"s2", "startup", [("name", some "s2")]⟩,
   ⟨"t1", "technology", [("name", some "t1")]⟩,
   ⟨"t2", "technology", [("name", some "t2")]⟩,
   ⟨"t3", "technology", [("name", some "t3")]⟩]

def relsC3 : List RelRec :=
  [⟨"s3", "t1", "USES_TECHNOLOGY"⟩, ⟨"s3", "t2", "USES_TECHNOLOGY"⟩,
   ⟨"s1", "t2", "USES_TECHNOLOGY"⟩, ⟨"s1", "t3", "USES_TECHNOLOGY"⟩,
   ⟨"s2", "t3", "USES_TECHNOLOGY"⟩, ⟨"s2", "t1", "USES_TECHNOLOGY"⟩]

def gC3 : NXGraph := loadGraph entsC3 relsC3

/-- A store with a founder F1 whose comparable keys are all present but
null, and a fully populated founder F2. -/
def entsC4 : List Entity :=
  [⟨"f1", "founder",
     [("name", some "F1"), ("university", none),
      ("domain_expertise", none), ("technical_background", none)]⟩,
   ⟨"f2", "founder",
     [("name", some "F2"), ("university", some "MIT"),
      ("domain_expertise", some "AI"), ("technical_background", some "CS")]⟩]

def gC4 : NXGraph := loadGraph entsC4 []

/-- A store with two founders sharing an empty-string university (present
and non-null on both) and differing in domain expertise. -/
def entsC5 : List Entity :=
  [⟨"g1", "founder",
     [("name", some "G1"), ("university", some ""), ("domain_expertise", some "AI")]⟩,
   ⟨"g2", "founder",
     [("name", some "G2"), ("university", some ""), ("domain_expertise", some "ML")]⟩]

def gC5 : NXGraph := loadGraph entsC5 []

/-- A store with two startups sharing one technology, so that target-vs-all
for Alpha has exactly one nonzero-scored candidate. -/
def entsC7 : List Entity :=
  [⟨"p1", "startup", [("name", some "Alpha")]⟩,
   ⟨"p2", "startup", [("name", some "Beta")]⟩,
   ⟨"q1", "technology", [("name", some "Q1")]⟩]

def relsC7 : List RelRec :=
  [⟨"p1", "q1", "USES_TECHNOLOGY"⟩, ⟨"p2", "q1", "USES_TECHNOLOGY"⟩]

def gC7 : NXGraph := loadGraph entsC7 relsC7

/-- A store where fund V1 reaches startup A through an investment
relationship but fund V2 reaches the same startup through a mentoring
relationship. -/
def entsC8 : List Entity :=
  [⟨"V1", "vc", [("name", some "V1")]⟩,
   ⟨"V2", "vc", [("name", some "V2")]⟩,
   ⟨"A", "startup", [("name", some "A")]⟩]

def relsC8 : List RelRec :=
  [⟨"V1", "A", "INVESTS_IN"⟩, ⟨"V2", "A", "MENTORS"⟩]

def gC8 : NXGraph := loadGraph entsC8 relsC8

/-- Two relationships of different types between the same pair. -/
def relsC9a : List RelRec := [⟨"a", "b", "INVESTS_IN"⟩, ⟨"a", "b", "MENTORS"⟩]

/-- Two relationships between the same unordered pair in opposite
directions. -/
def relsC9b : List RelRec := [⟨"a", "b", "INVESTS_IN"⟩, ⟨"b", "a", "PARTNERS"⟩]

/-- An exact duplicate relationship. -/
def relsC9c : List RelRec := [⟨"a", "b", "INVESTS_IN"⟩, ⟨"a", "b", "INVESTS_IN"⟩]

/-- Two stored edges cover the same unordered pair of endpoints. -/
def sameEdgePair (e f : Edge) : Prop := sameUPair e f.u f.v = true

/-! ### Arithmetic facts about the exact scores -/

/-- `mkRat` on the two set cardinalities is exactly the float division
`len(A & B) / len(A | B)` of the source, read over `ℚ`. -/
theorem jaccard_eq_div (A B : Finset String) :
    jaccard A B = (((A ∩ B).card : ℚ) / ((A ∪ B).card : ℚ)) := by
  rw [jaccard, Rat.mkRat_eq_div, Int.cast_natCast]

theorem jaccard_comm (A B : Finset String) : jaccard A B = jaccard B A := by
  rw [jaccard, jaccard, Finset.inter_comm, Finset.union_comm]

theorem mkRat_nat_nonneg (m c : ℕ) : 0 ≤ mkRat (m : Int) c := by
  rw [Rat.mkRat_eq_div]
  positivity

theorem mkRat_nat_le_one {m c : ℕ} (h : m ≤ c) : mkRat (m : Int) c ≤ 1 := by
  rw [Rat.mkRat_eq_div]
  rcases Nat.eq_zero_or_pos c with hc | hc
  · subst hc
    simp
  · rw [div_le_one (by exact_mod_cast hc)]
    exact_mod_cast h

theorem jaccard_nonneg (A B : Finset String) : 0 ≤ jaccard A B :=
  mkRat_nat_nonneg _ _

theorem jaccard_le_one (A B : Finset String) : jaccard A B ≤ 1 :=
  mkRat_nat_le_one (Finset.card_le_card Finset.inter_subset_union)

/-! ### Facts about the founder comparison blocks -/

/-- `cmpStep` through the condition actually tested by the source. -/
theorem cmpStep_def (g : NXGraph) (a b : String) (acc : ℕ × ℕ) (k : String) :
    cmpStep g a b acc k =
      if truthyBoth g a b k then
        ((if nodeGet g a k = nodeGet g b k then acc.1 + 1 else acc.1), acc.2 + 1)
      else acc := rfl

theorem cmpStep_comm (g : NXGraph) (a b : String) (acc : ℕ × ℕ) (k : String) :
    cmpStep g a b acc k = cmpStep g b a acc k := by
  rw [cmpStep_def, cmpStep_def]
  have hc : truthyBoth g a b k = truthyBoth g b a k := by
    rw [truthyBoth, truthyBoth, Bool.and_comm]
  rw [hc]
  refine if_congr Iff.rfl ?_ rfl
  have he : (if nodeGet g a k = nodeGet g b k then acc.1 + 1 else acc.1) =
      (if nodeGet g b k = nodeGet g a k then acc.1 + 1 else acc.1) :=
    if_congr ⟨Eq.symm, Eq.symm⟩ rfl rfl
  rw [he]

theorem foldl_cmpStep_eq (g : NXGraph) (a b : String) :
    ∀ (l : List String) (acc : ℕ × ℕ),
      l.foldl (cmpStep g a b) acc =
        (acc.1 + (l.filter (fun k =>
            truthyBoth g a b k && decide (nodeGet g a k = nodeGet g b k))).length,
         acc.2 + (l.filter (truthyBoth g a b)).length) := by
  intro l
  induction l with
  | nil => intro acc; simp
  | cons k ks ih =>
    intro acc
    rw [List.foldl_cons, ih, cmpStep_def]
    by_cases hc : truthyBoth g a b k = true
    · by_cases he : nodeGet g a k = nodeGet g b k
      · rw [if_pos hc, if_pos he, List.filter_cons_of_pos (by simp [hc, he]),
          List.filter_cons_of_pos hc]
        simp only [Prod.ext_iff, List.length_cons]
        simp only [Prod.mk.injEq] at *
        omega
      · rw [if_pos hc, if_neg he, List.filter_cons_of_neg (by simp [he]),
          List.filter_cons_of_pos hc]
        simp only [Prod.ext_iff, List.length_cons]
        exact ⟨trivial, by omega⟩
    · rw [if_neg hc, List.filter_cons_of_neg (by simp [hc]),
        List.filter_cons_of_neg (by simp [hc])]

/-- The accumulated counts are exactly the lengths of the declarative key
filters. -/
theorem founderCounts_eq (g : NXGraph) (a b : String) :
    founderCounts g a b = ((matchKeys g a b).length, (compKeys g a b).length) := by
  rw [founderCounts, foldl_cmpStep_eq, matchKeys, compKeys]
  simp

theorem founderCounts_comm (g : NXGraph) (a b : String) :
    founderCounts g a b = founderCounts g b a := by
  rw [founderCounts, founderCounts]
  have : cmpStep g a b = cmpStep g b a := by
    funext acc k
    exact cmpStep_comm g a b acc k
  rw [this]

theorem foldl_cmpStep_le (g : NXGraph) (a b : String) :
    ∀ (l : List String) (acc : ℕ × ℕ), acc.1 ≤ acc.2 →
      (l.foldl (cmpStep g a b) acc).1 ≤ (l.foldl (cmpStep g a b) acc).2 := by
  intro l
  induction l with
  | nil => intro acc h; exact h
  | cons k ks ih =>
    intro acc h
    rw [List.foldl_cons]
    apply ih
    rw [cmpStep_def]
    split
    · split <;> simp <;> omega
    · exact h

theorem founderCounts_fst_le_snd (g : NXGraph) (a b : String) :
    (founderCounts g a b).1 ≤ (founderCounts g a b).2 :=
  foldl_cmpStep_le g a b founderKeys (0, 0) (le_refl 0)

theorem founderScore_comm (g : NXGraph) (a b : String) :
    founderScore g a b = founderScore g b a := by
  rw [founderScore, founderScore, founderCounts_comm]

theorem founderScore_nonneg (g : NXGraph) (a b : String) : 0 ≤ founderScore g a b :=
  mkRat_nat_nonneg _ _

theorem founderScore_le_one (g : NXGraph) (a b : String) : founderScore g a b ≤ 1 :=
  mkRat_nat_le_one (founderCounts_fst_le_snd g a b)

/-! ### The stable descending sort -/

theorem mem_insertByDesc {key : α → ℚ} {x a : α} :
    ∀ {l : List α}, x ∈ insertByDesc key a l ↔ x = a ∨ x ∈ l := by
  intro l
  induction l with
  | nil => simp [insertByDesc]
  | cons y ys ih =>
    rw [insertByDesc]
    split
    · simp [List.mem_cons]
    · rw [List.mem_cons, ih, List.mem_cons]
      tauto

theorem sorted_insertByDesc {key : α → ℚ} (a : α) :
    ∀ {l : List α}, List.Sorted (descBy key) l →
      List.Sorted (descBy key) (insertByDesc key a l) := by
  intro l
  induction l with
  | nil =>
    intro _
    simp [insertByDesc]
  | cons y ys ih =>
    intro hs
    rw [List.sorted_cons] at hs
    obtain ⟨hy, hys⟩ := hs
    rw [insertByDesc]
    split
    · rename_i hlt
      rw [List.sorted_cons]
      refine ⟨?_, List.sorted_cons.mpr ⟨hy, hys⟩⟩
      intro b hb
      rcases List.mem_cons.mp hb with rfl | hb
      · exact le_of_lt hlt
      · exact le_trans (hy b hb) (le_of_lt hlt)
    · rename_i hnlt
      rw [List.sorted_cons]
      refine ⟨?_, ih hys⟩
      intro b hb
      rcases mem_insertByDesc.mp hb with rfl | hb
      · exact le_of_not_lt hnlt
      · exact hy b hb

theorem mem_pySortFold {key : α → ℚ} :
    ∀ (l acc : List α) (x : α),
      x ∈ l.foldl (fun acc x => insertByDesc key x acc) acc ↔ x ∈ acc ∨ x ∈ l := by
  intro l
  induction l with
  | nil => simp
  | cons y ys ih =>
    intro acc x
    rw [List.foldl_cons, ih, mem_insertByDesc, List.mem_cons]
    tauto

/-- Membership in the sorted output is membership in the input. -/
theorem mem_pySortDesc {key : α → ℚ} {l : List α} {x : α} :
    x ∈ pySortDesc key l ↔ x ∈ l := by
  rw [pySortDesc, mem_pySortFold]
  simp

theorem sorted_pySortFold {key : α → ℚ} :
    ∀ (l acc : List α), List.Sorted (descBy key) acc →
      List.Sorted (descBy key) (l.foldl (fun acc x => insertByDesc key x acc) acc) := by
  intro l
  induction l with
  | nil => intro acc h; exact h
  | cons y ys ih =>
    intro acc h
    rw [List.foldl_cons]
    exact ih _ (sorted_insertByDesc y h)

/-- The modelled Python sort really sorts by descending key. -/
theorem sorted_pySortDesc (key : α → ℚ) (l : List α) :
    List.Sorted (descBy key) (pySortDesc key l) :=
  sorted_pySortFold l [] (by simp)

/-! ### Unordered-pair enumeration -/

theorem mem_allPairs_mem : ∀ {l : List α} {p : α × α},
    p ∈ allPairs l → p.1 ∈ l ∧ p.2 ∈ l := by
  intro l
  induction l with
  | nil => simp [allPairs]
  | cons x xs ih =>
    intro p hp
    rw [allPairs, List.mem_append] at hp
    rcases hp with hp | hp
    · obtain ⟨y, hy, rfl⟩ := List.mem_map.mp hp
      exact ⟨List.mem_cons_self x xs, List.mem_cons_of_mem x hy⟩
    · obtain ⟨h1, h2⟩ := ih hp
      exact ⟨List.mem_cons_of_mem x h1, List.mem_cons_of_mem x h2⟩

theorem allPairs_ne : ∀ {l : List α}, l.Nodup → ∀ p ∈ allPairs l, p.1 ≠ p.2 := by
  intro l
  induction l with
  | nil => simp [allPairs]
  | cons x xs ih =>
    intro hnd p hp
    rw [List.nodup_cons] at hnd
    obtain ⟨hx, hxs⟩ := hnd
    rw [allPairs, List.mem_append] at hp
    rcases hp with hp | hp
    · obtain ⟨y, hy, rfl⟩ := List.mem_map.mp hp
      intro he
      dsimp only at he
      cases he
      exact hx hy
    · exact ih hxs p hp

theorem allPairs_pairwise : ∀ {l : List α}, l.Nodup →
    (allPairs l).Pairwise (fun p q => ¬ samePair p q) := by
  intro l
  induction l with
  | nil => simp [allPairs]
  | cons x xs ih =>
    intro hnd
    rw [List.nodup_cons] at hnd
    obtain ⟨hx, hxs⟩ := hnd
    rw [allPairs, List.pairwise_append]
    refine ⟨?_, ih hxs, ?_⟩
    · rw [List.pairwise_map]
      refine List.Pairwise.imp_of_mem ?_ hxs
      intro y z hy hz hne hs
      rcases hs with ⟨_, h2⟩ | ⟨h1, _⟩
      · dsimp only at h2
        exact hne h2
      · dsimp only at h1
        subst h1
        exact hx hz
    · intro p hp q hq
      obtain ⟨y, hy, rfl⟩ := List.mem_map.mp hp
      obtain ⟨hq1, hq2⟩ := mem_allPairs_mem hq
      intro hs
      rcases hs with ⟨h1, _⟩ | ⟨h1, _⟩
      · dsimp only at h1
        apply hx
        rw [h1]
        exact hq1
      · dsimp only at h1
        apply hx
        rw [h1]
        exact hq2

/-! ### The simple-graph edge store -/

theorem updEdge_u (c : Prop) [Decidable c] (e : Edge) (t : String) :
    (if c then { e with rtype := t } else e).u = e.u := by
  split <;> rfl

theorem updEdge_v (c : Prop) [Decidable c] (e : Edge) (t : String) :
    (if c then { e with rtype := t } else e).v = e.v := by
  split <;> rfl

theorem sameEdgePair_update (e f : Edge) (a b t : String) :
    sameEdgePair (if sameUPair e a b then { e with rtype := t } else e)
      (if sameUPair f a b then { f with rtype := t } else f) ↔ sameEdgePair e f := by
  simp only [sameEdgePair, sameUPair, updEdge_u, updEdge_v]

theorem addEdge_pairwise (es : List Edge) (a b t : String)
    (h : es.Pairwise (fun e f => ¬ sameEdgePair e f)) :
    (addEdge es a b t).Pairwise (fun e f => ¬ sameEdgePair e f) := by
  rw [addEdge]
  split
  · rw [List.pairwise_map]
    refine h.imp_of_mem ?_
    intro e f _ _ hn hs
    exact hn ((sameEdgePair_update e f a b t).mp hs)
  · rename_i hna
    rw [List.pairwise_append]
    refine ⟨h, List.pairwise_singleton _ _, ?_⟩
    intro e he f hf
    rw [List.mem_singleton] at hf
    subst hf
    intro hs
    exact hna (List.any_eq_true.mpr ⟨e, he, hs⟩)

theorem addEdge_covers (es : List Edge) (a b t : String) :
    (addEdge es a b t).any (fun e => sameUPair e a b) = true := by
  rw [addEdge]
  split
  · rename_i hany
    obtain ⟨e, he, hse⟩ := List.any_eq_true.mp hany
    refine List.any_eq_true.mpr
      ⟨if sameUPair e a b then { e with rtype := t } else e, List.mem_map_of_mem _ he, ?_⟩
    rw [if_pos hse]
    exact hse
  · refine List.any_eq_true.mpr ⟨⟨a, b, t⟩, ?_, ?_⟩
    · simp
    · simp [sameUPair]

theorem addEdge_covers_mono (es : List Edge) (a b t c d : String)
    (h : es.any (fun e => sameUPair e c d) = true) :
    (addEdge es a b t).any (fun e => sameUPair e c d) = true := by
  rw [addEdge]
  obtain ⟨e, he, hse⟩ := List.any_eq_true.mp h
  split
  · refine List.any_eq_true.mpr
      ⟨if sameUPair e a b then { e with rtype := t } else e, List.mem_map_of_mem _ he, ?_⟩
    by_cases hc : sameUPair e a b = true
    · rw [if_pos hc]
      exact hse
    · rw [if_neg hc]
      exact hse
  · exact List.any_eq_true.mpr ⟨e, List.mem_append_left _ he, hse⟩

theorem foldl_addEdge_pairwise :
    ∀ (rels : List RelRec) (acc : List Edge),
      acc.Pairwise (fun e f => ¬ sameEdgePair e f) →
      (rels.foldl (fun es r => addEdge es r.source r.target r.rtype) acc).Pairwise
        (fun e f => ¬ sameEdgePair e f) := by
  intro rels
  induction rels with
  | nil => intro acc h; exact h
  | cons r rs ih =>
    intro acc h
    rw [List.foldl_cons]
    exact ih _ (addEdge_pairwise _ _ _ _ h)

theorem foldl_addEdge_covers :
    ∀ (rels : List RelRec) (acc : List Edge) (c d : String),
      acc.any (fun e => sameUPair e c d) = true →
      (rels.foldl (fun es r => addEdge es r.source r.target r.rtype) acc).any
        (fun e => sameUPair e c d) = true := by
  intro rels
  induction rels with
  | nil => intro acc c d h; exact h
  | cons r rs ih =>
    intro acc c d h
    rw [List.foldl_cons]
    exact ih _ c d (addEdge_covers_mono _ _ _ _ _ _ h)

theorem foldl_addEdge_all :
    ∀ (rels : List RelRec) (acc : List Edge), ∀ r ∈ rels,
      (rels.foldl (fun es q => addEdge es q.source q.target q.rtype) acc).any
        (fun e => sameUPair e r.source r.target) = true := by
  intro rels
  induction rels with
  | nil => intro acc r hr; cases hr
  | cons q qs ih =>
    intro acc r hr
    rw [List.foldl_cons]
    rcases List.mem_cons.mp hr with rfl | hr
    · exact foldl_addEdge_covers qs _ _ _ (addEdge_covers _ _ _ _)
    · exact ih _ r hr

/-! ### Substring containment -/

theorem startsWithL_iff : ∀ (nd hs : List Char), startsWithL nd hs = true ↔ nd <+: hs := by
  intro nd
  induction nd with
  | nil =>
    intro hs
    simp [startsWithL, List.nil_prefix]
  | cons a as ih =>
    intro hs
    cases hs with
    | nil => simp [startsWithL]
    | cons b bs =>
      rw [startsWithL, List.cons_prefix_cons]
      simp [ih]

theorem containsL_iff : ∀ (hs nd : List Char), containsL nd hs = true ↔ nd <:+: hs := by
  intro hs
  induction hs with
  | nil =>
    intro nd
    rw [containsL, startsWithL_iff]
    simp
  | cons c cs ih =>
    intro nd
    rw [containsL, Bool.or_eq_true, startsWithL_iff, ih, List.infix_cons_iff]

/-! ### Claims -/

/-- C1: in all-pairs mode over startups, for the store with S1 using
technologies T1 and T2, S2 using T2 and T3, and S3 using none, the engine
returns exactly one result, the pair (S1, S2) with score 1/3 (intersection
size 1, union size 3), and S3 appears in no result. -/
theorem claim_C1_three_org_scenario :
    startup_similarity_by_technology gC1 =
      [⟨some "S1", some "S2", mkRat 1 3, 1, 3⟩] ∧
    (startup_similarity_by_technology gC1).all
      (fun r => !(r.name1 == some "S3") && !(r.name2 == some "S3")) = true ∧
    (mkRat 1 3 : ℚ) = 1 / 3 := by
  refine ⟨by decide, by decide, ?_⟩
  rw [Rat.mkRat_eq_div]
  norm_num

/-- C2: both the set-overlap scorer (over technology neighbors for startups
and over startup neighbors for VCs) and the attribute-match scorer for
founders are symmetric and take values in the closed interval [0, 1], on
every graph and every pair. -/
theorem claim_C2_symmetry_and_bounds (g : NXGraph) (a b : String) :
    startupScore g a b = startupScore g b a ∧
    0 ≤ startupScore g a b ∧ startupScore g a b ≤ 1 ∧
    vcScore g a b = vcScore g b a ∧
    0 ≤ vcScore g a b ∧ vcScore g a b ≤ 1 ∧
    founderScore g a b = founderScore g b a ∧
    0 ≤ founderScore g a b ∧ founderScore g a b ≤ 1 :=
  ⟨jaccard_comm _ _, jaccard_nonneg _ _, jaccard_le_one _ _,
   jaccard_comm _ _, jaccard_nonneg _ _, jaccard_le_one _ _,
   founderScore_comm g a b, founderScore_nonneg g a b, founderScore_le_one g a b⟩

/-- C3 counterexample: in the store gC3 the startups were inserted in the
order s3, s1, s2 and all three pairs score exactly 1/3; the emitted order is
the pair-enumeration order (s3,s1), (s3,s2), (s1,s2), which is not the
ascending lexicographic order of the id pairs the claim requires ((s1,s2)
would have to come first). -/
theorem claim_C3_counterexample :
    (startup_similarity_by_technology gC3).map idPair =
      [("s3", "s1"), ("s3", "s2"), ("s1", "s2")] ∧
    (startup_similarity_by_technology gC3).map (fun r => r.similarity) =
      [mkRat 1 3, mkRat 1 3, mkRat 1 3] ∧
    ¬ List.Sorted (fun p q => pairLexLeB p q = true)
      ((startup_similarity_by_technology gC3).map idPair) := by
  refine ⟨by decide, by decide, ?_⟩
  decide

/-- C3 as amended: in all-pairs mode, for every entity type, the returned
list is sorted by descending score; equal scores keep the candidate-pair
enumeration order (the sort is stable), which follows node insertion order,
not the ascending lexicographic id order the spec claims. -/
theorem claim_C3_amended_sorted_descending (g : NXGraph) :
    List.Sorted (descBy (fun r => r.similarity)) (startup_similarity_by_technology g) ∧
    List.Sorted (descBy (fun r => r.similarity)) (vc_similarity_by_investments g) ∧
    List.Sorted (descBy (fun r => r.similarity)) (founder_similarity_by_background g) :=
  ⟨sorted_pySortDesc _ _, sorted_pySortDesc _ _, sorted_pySortDesc _ _⟩

/-- C4 counterexample: in gC4 the founder F1 resolves, every comparable
attribute key is present but null on it, yet `find_similar_founders_to`
returns the plain empty result list — not a distinct "no basis for
comparison" outcome (the string branch the startup and VC variants have does
not exist in the founder variant). -/
theorem claim_C4_counterexample :
    resolveByName gC4 "founder" "F1" = some "f1" ∧
    truthy (nodeGet gC4 "f1" "university") = false ∧
    truthy (nodeGet gC4 "f1" "domain_expertise") = false ∧
    truthy (nodeGet gC4 "f1" "technical_background") = false ∧
    find_similar_founders_to gC4 "F1" 5 = Sum.inr [] := by
  decide

/-- C4 as amended: the "no basis for comparison" outcome exists only in the
set-overlap variants: a resolved startup target without technology
neighbors gets the distinct message string, while a resolved founder target
whose comparable keys are all non-truthy gets the plain empty result
list. -/
theorem claim_C4_amended_no_basis_outcomes :
    (∀ (g : NXGraph) (nm t : String) (n : Int),
      resolveByName g "startup" nm = some t →
      typedNeighbors g t "technology" = ∅ →
      find_similar_startups_to g nm n = Sum.inl ("No technologies found for " ++ nm)) ∧
    (∀ (g : NXGraph) (nm t : String) (n : Int),
      resolveByName g "founder" nm = some t →
      founderKeys.all (fun k => !(truthy (nodeGet g t k))) = true →
      find_similar_founders_to g nm n = Sum.inr []) := by
  constructor
  · intro g nm t n h1 h2
    rw [find_similar_startups_to, h1]
    dsimp only
    rw [if_pos h2]
  · intro g nm t n h1 h2
    rw [find_similar_founders_to, h1]
    dsimp only
    have hf : ((nodeIds g).filterMap (fun v =>
        if nodeType g v = some "founder" ∧ v ≠ t then
          if 0 < (founderCounts g t v).2 then
            if 0 < founderScore g t v then
              some (⟨nodeNameOr g v, founderScore g t v,
                (founderCounts g t v).1, (founderCounts g t v).2⟩ : TargetResult)
            else none
          else none
        else none)) = [] := by
      rw [List.filterMap_eq_nil_iff]
      intro v _
      by_cases hc : nodeType g v = some "founder" ∧ v ≠ t
      · rw [if_pos hc]
        have hck : compKeys g t v = [] := by
          rw [compKeys, List.filter_eq_nil_iff]
          intro k hk
          have hnt := List.all_eq_true.mp h2 k hk
          simp only [Bool.not_eq_true'] at hnt
          simp [truthyBoth, hnt]
        have hz : founderCounts g t v = (0, 0) := by
          have hmk : matchKeys g t v = [] := by
            rw [matchKeys, List.filter_eq_nil_iff]
            intro k hk
            have hnt := List.all_eq_true.mp h2 k hk
            simp only [Bool.not_eq_true'] at hnt
            simp [truthyBoth, hnt]
          rw [founderCounts_eq, hck, hmk]
          rfl
        rw [hz]
        simp
      · rw [if_neg hc]
    rw [hf]
    rw [pySortDesc]
    simp only [List.foldl_nil]
    rw [pyTake]
    split <;> simp

/-- Witness for the amended C4 at concrete stores: startup S3 of gC1 has no
technologies and gets the message string; founder F1 of gC4 has only null
comparable keys and gets the empty list. -/
theorem claim_C4_amended_witness :
    find_similar_startups_to gC1 "S3" 5 = Sum.inl ("No technologies found for " ++ "S3") ∧
    find_similar_founders_to gC4 "F1" 7 = Sum.inr [] :=
  ⟨claim_C4_amended_no_basis_outcomes.1 gC1 "S3" "S3" 5 (by decide) (by decide),
   claim_C4_amended_no_basis_outcomes.2 gC4 "F1" "f1" 7 (by decide) (by decide)⟩

/-- C5 counterexample: in gC5 both founders carry `university = ""` (present
and non-null) and different domain expertise.  The spec formula counts the
university key (score 1/2), but the code tests truthiness, skips the empty
string, and scores 0. -/
theorem claim_C5_counterexample :
    presentNonNull (nodeAttrs gC5 "g1") "university" = true ∧
    presentNonNull (nodeAttrs gC5 "g2") "university" = true ∧
    specFounderScore gC5 "g1" "g2" = mkRat 1 2 ∧
    founderScore gC5 "g1" "g2" = 0 ∧
    founderScore gC5 "g1" "g2" ≠ specFounderScore gC5 "g1" "g2" := by
  decide

/-- C5 as amended: the attribute-match score equals (keys from the fixed
list whose values are truthy — present, non-null and non-empty — on both
entities and exactly equal) divided by (keys whose values are truthy on
both), and equals 0 when no key is truthy on both; absent, null or falsy
values are skipped, never an error. -/
theorem claim_C5_amended_truthy_attribute_score (g : NXGraph) (a b : String) :
    founderScore g a b =
      mkRat ((matchKeys g a b).length : Int) (compKeys g a b).length ∧
    ((compKeys g a b).length = 0 → founderScore g a b = 0) := by
  constructor
  · rw [founderScore, founderCounts_eq]
  · intro h
    rw [founderScore, founderCounts_eq]
    rw [h, Rat.mkRat_eq_div]
    simp

/-- Witness for the amended C5: in gC4 no key is truthy on both founders and
the score is 0. -/
theorem claim_C5_amended_witness :
    founderScore gC4 "f1" "f2" =
      mkRat ((matchKeys gC4 "f1" "f2").length : Int) (compKeys gC4 "f1" "f2").length ∧
    founderScore gC4 "f1" "f2" = 0 :=
  ⟨(claim_C5_amended_truthy_attribute_score gC4 "f1" "f2").1,
   (claim_C5_amended_truthy_attribute_score gC4 "f1" "f2").2 (by decide)⟩

/-- The pairs kept by an all-pairs loop over a duplicate-free entity list
are pairwise distinct as unordered pairs. -/
theorem keptPairs_pairwise {l : List String} (hnd : l.Nodup)
    (pred : String × String → Bool) :
    ((allPairs l).filter pred).Pairwise (fun p q => ¬ samePair p q) :=
  (allPairs_pairwise hnd).filter pred

/-- No kept pair is a self-pair. -/
theorem keptPairs_ne {l : List String} (hnd : l.Nodup)
    (pred : String × String → Bool) :
    ((allPairs l).filter pred).all (fun p => !(p.1 == p.2)) = true := by
  rw [List.all_eq_true]
  intro p hp
  have hne := allPairs_ne hnd p (List.mem_of_mem_filter hp)
  simpa using hne

/-- Every record shaped from a kept pair with a positive score keeps its
positive score through the sort. -/
theorem pySort_map_all_pos (pairs : List (String × String))
    (mk : String × String → PairResult)
    (hmk : ∀ p ∈ pairs, 0 < (mk p).similarity) :
    (pySortDesc (fun r => r.similarity) (pairs.map mk)).all
      (fun r => decide (0 < r.similarity)) = true := by
  rw [List.all_eq_true]
  intro r hr
  rw [mem_pySortDesc] at hr
  obtain ⟨p, hp, rfl⟩ := List.mem_map.mp hr
  exact decide_eq_true (hmk p hp)

/-- C6: when node ids are duplicate-free (they are dict keys in the source),
each all-pairs mode emits every unordered pair at most once, never a
self-pair, and only strictly positive scores. -/
theorem claim_C6_dedup_and_positive (g : NXGraph) (h : (nodeIds g).Nodup) :
    (startupKeptPairs g).Pairwise (fun p q => ¬ samePair p q) ∧
    (startupKeptPairs g).all (fun p => !(p.1 == p.2)) = true ∧
    (startup_similarity_by_technology g).all (fun r => decide (0 < r.similarity)) = true ∧
    (vcKeptPairs g).Pairwise (fun p q => ¬ samePair p q) ∧
    (vcKeptPairs g).all (fun p => !(p.1 == p.2)) = true ∧
    (vc_similarity_by_investments g).all (fun r => decide (0 < r.similarity)) = true ∧
    (founderKeptPairs g).Pairwise (fun p q => ¬ samePair p q) ∧
    (founderKeptPairs g).all (fun p => !(p.1 == p.2)) = true ∧
    (founder_similarity_by_background g).all (fun r => decide (0 < r.similarity)) = true := by
  have hs : (startupIdList g).Nodup := h.filter _
  have hv : (vcIdList g).Nodup := h.filter _
  have hf : (foundersList g).Nodup := h.filter _
  refine ⟨keptPairs_pairwise hs _, keptPairs_ne hs _, ?_,
    keptPairs_pairwise hv _, keptPairs_ne hv _, ?_,
    keptPairs_pairwise hf _, keptPairs_ne hf _, ?_⟩
  · apply pySort_map_all_pos
    intro p hp
    have hc := (List.mem_filter.mp hp).2
    simp only [Bool.and_eq_true, decide_eq_true_eq] at hc
    exact hc.2
  · apply pySort_map_all_pos
    intro p hp
    have hc := (List.mem_filter.mp hp).2
    simp only [Bool.and_eq_true, decide_eq_true_eq] at hc
    exact hc.2
  · apply pySort_map_all_pos
    intro p hp
    have hc := (List.mem_filter.mp hp).2
    simp only [Bool.and_eq_true, decide_eq_true_eq] at hc
    exact hc.2

/-- Witness for C6 at the concrete store gC1. -/
theorem claim_C6_witness :
    (startupKeptPairs gC1).Pairwise (fun p q => ¬ samePair p q) ∧
    (startup_similarity_by_technology gC1).all
      (fun r => decide (0 < r.similarity)) = true :=
  ⟨(claim_C6_dedup_and_positive gC1 (by decide)).1,
   (claim_C6_dedup_and_positive gC1 (by decide)).2.2.1⟩

/-- C7 counterexample: there is no `InvalidTopN` failure anywhere in the
engine.  For `top_n = 0` and `top_n = -1` the target-vs-all call on gC7
returns an ordinary (empty) result list via Python slicing, and
`get_top_similar_entities` does the same; `top_n = 1` shows a normal
result for comparison. -/
theorem claim_C7_counterexample :
    find_similar_startups_to gC7 "Alpha" 0 = Sum.inr [] ∧
    find_similar_startups_to gC7 "Alpha" (-1) = Sum.inr [] ∧
    get_top_similar_entities gC7 "startup" 0 = some [] ∧
    find_similar_startups_to gC7 "Alpha" 1 =
      Sum.inr [⟨some "Beta", mkRat 1 1, 1, 1⟩] := by
  decide

/-- C7 as amended: for a resolved target with a nonempty technology set the
engine never fails on a non-positive N: it returns the Python slice of the
ranked list — the empty list for N = 0, and a result list for every N. -/
theorem claim_C7_amended_slice_semantics (g : NXGraph) (nm t : String)
    (h1 : resolveByName g "startup" nm = some t)
    (h2 : typedNeighbors g t "technology" ≠ ∅) :
    find_similar_startups_to g nm 0 = Sum.inr [] ∧
    ∀ n : Int, ∃ rs : List TargetResult, find_similar_startups_to g nm n = Sum.inr rs := by
  constructor
  · rw [find_similar_startups_to, h1]
    dsimp only
    rw [if_neg h2]
    rw [pyTake]
    simp
  · intro n
    rw [find_similar_startups_to, h1]
    dsimp only
    rw [if_neg h2]
    exact ⟨_, rfl⟩

/-- Witness for the amended C7 at the concrete store gC7. -/
theorem claim_C7_amended_witness :
    find_similar_startups_to gC7 "Alpha" 0 = Sum.inr [] :=
  (claim_C7_amended_slice_semantics gC7 "Alpha" "p1" (by decide) (by decide)).1

/-- C8 counterexample: V2 reaches startup A only through a MENTORS
relationship, yet in gC8 the all-pairs VC mode scores V1 and V2 at a full
Jaccard of 1; under the spec reading (investment relationships only) V2 has
no investment neighbors and the pair scores 0. -/
theorem claim_C8_counterexample :
    vc_similarity_by_investments gC8 = [⟨some "V1", some "V2", mkRat 1 1, 1, 1⟩] ∧
    specInvestmentNeighbors gC8 "V2" = ∅ ∧
    specVcScore gC8 "V1" "V2" = 0 ∧
    vcScore gC8 "V1" "V2" = mkRat 1 1 := by
  decide

/-- C8 as amended: the neighbor set a fund is scored on contains exactly
the startup-typed nodes adjacent to it by a relationship of any type — the
relationship type on the edge is never consulted. -/
theorem claim_C8_amended_any_edge_type (g : NXGraph) (v u : String) :
    u ∈ typedNeighbors g v "startup" ↔
      nodeGet g u "type" = some "startup" ∧
      ∃ e ∈ g.edges, (e.u = v ∧ e.v = u) ∨ (e.v = v ∧ e.u = u) := by
  rw [typedNeighbors, List.mem_toFinset, List.mem_filter, adjList]
  constructor
  · rintro ⟨hmem, htype⟩
    refine ⟨by simpa using htype, ?_⟩
    obtain ⟨e, he, hfe⟩ := List.mem_filterMap.mp hmem
    refine ⟨e, he, ?_⟩
    by_cases h1 : e.u = v
    · rw [if_pos h1] at hfe
      injection hfe with hh
      exact Or.inl ⟨h1, hh⟩
    · rw [if_neg h1] at hfe
      by_cases h2 : e.v = v
      · rw [if_pos h2] at hfe
        injection hfe with hh
        exact Or.inr ⟨h2, hh⟩
      · rw [if_neg h2] at hfe
        cases hfe
  · rintro ⟨htype, e, he, hcase⟩
    refine ⟨?_, by simpa using htype⟩
    apply List.mem_filterMap.mpr
    refine ⟨e, he, ?_⟩
    rcases hcase with ⟨h1, h2⟩ | ⟨h1, h2⟩
    · rw [if_pos h1, h2]
    · by_cases h3 : e.u = v
      · rw [if_pos h3, h1, ← h2, h3]
      · rw [if_neg h3, if_pos h1, h2]

/-- C9 counterexample: `nx.Graph` keeps a single edge per unordered pair.
A second relationship of a different type, in either direction, or an exact
duplicate, does not produce a second stored edge; the later type attribute
overwrites the earlier one. -/
theorem claim_C9_counterexample :
    loadEdges relsC9a = [⟨"a", "b", "MENTORS"⟩] ∧
    loadEdges relsC9b = [⟨"a", "b", "PARTNERS"⟩] ∧
    loadEdges relsC9c = [⟨"a", "b", "INVESTS_IN"⟩] ∧
    (loadEdges relsC9a).length = 1 := by
  decide

/-- C9 as amended: adding a relationship never fails, but duplicates are
not kept distinct: the loaded edge store holds at most one edge per
unordered pair, and every input relationship is represented by the (single)
edge covering its endpoint pair. -/
theorem claim_C9_amended_single_edge_per_pair (rels : List RelRec) :
    (loadEdges rels).Pairwise (fun e f => ¬ sameEdgePair e f) ∧
    rels.all (fun r =>
      (loadEdges rels).any (fun e => sameUPair e r.source r.target)) = true := by
  constructor
  · exact foldl_addEdge_pairwise rels [] List.Pairwise.nil
  · rw [List.all_eq_true]
    intro r hr
    exact foldl_addEdge_all rels [] r hr

/-- C10 counterexample: the code's keyword list omits `write` and adds
`detach` and `create`.  A query containing WRITE (and none of the code's
keywords) is accepted, while a query containing CREATE (and none of the
keywords the spec names) is rejected — both contradict the claim. -/
theorem claim_C10_counterexample :
    containsSub (lowerStr "MATCH (n) WRITE") "write" = true ∧
    is_safe_query "MATCH (n) WRITE" = true ∧
    specKeywords.all (fun k => !(containsSub (lowerStr "CREATE (x)") k)) = true ∧
    is_safe_query "CREATE (x)" = false := by
  decide

/-- C10 as amended: the safety predicate rejects exactly the queries whose
lowercased text contains one of delete, detach, create, merge, set, remove,
drop as a contiguous substring; `write` is not among the tested keywords. -/
theorem claim_C10_amended_keyword_reject (q : String) :
    is_safe_query q = false ↔
      ∃ k ∈ blocked_keywords, k.data <:+: (lowerStr q).data := by
  simp only [is_safe_query, Bool.not_eq_false', List.any_eq_true, containsSub,
    containsL_iff]
